import Mathlib

/-!
Verification of the `algo run` input-resolution and response-rendering
pipeline (`src/algo/run.rs`).

The pipeline is shallowly embedded: bytes are `Nat` values below 256 in
`List Nat`, strings are Lean `String`s, the I/O side effects of the
original program (file creation, the single remote call, writes to the
output device, to standard error and to standard output) are recorded as
an explicit event trace, and every `die!` abort becomes an `Except`
error carrying the message category.
-/

namespace AlgoRun

/-! ### UTF-8 encoding and strict decoding

Models Rust's `str::as_bytes` / `String::into_bytes` (encoding) and
`String::from_utf8` / `Read::read_to_string` (strict validating
decoding, rejecting overlong forms, surrogates and out-of-range
scalars), which `run.rs` calls on its inputs.
-/

/-- UTF-8 encoding of a single Unicode scalar value. -/
def utf8EncodeChar (c : Char) : List Nat :=
  let v := c.toNat
  if v < 0x80 then [v]
  else if v < 0x800 then [0xC0 + v / 64, 0x80 + v % 64]
  else if v < 0x10000 then
    [0xE0 + v / 4096, 0x80 + (v / 64) % 64, 0x80 + v % 64]
  else
    [0xF0 + v / 262144, 0x80 + (v / 4096) % 64, 0x80 + (v / 64) % 64, 0x80 + v % 64]

/-- The UTF-8 bytes of a string: Rust's `str::as_bytes`. -/
def strBytes (s : String) : List Nat :=
  s.data.flatMap utf8EncodeChar

/-- Strict decoding of one UTF-8 encoded scalar from the front of a byte
list, returning the character and the remaining bytes.  Rejects
continuation-byte errors, overlong encodings, surrogates and values
above `0x10FFFF`, exactly as Rust's standard UTF-8 validation does. -/
def utf8DecodeChar? : List Nat → Option (Char × List Nat)
  | [] => none
  | b0 :: rest =>
    if b0 < 0x80 then some (Char.ofNat b0, rest)
    else if b0 < 0xC2 then none
    else if b0 ≤ 0xDF then
      match rest with
      | b1 :: rest' =>
        if 0x80 ≤ b1 then
          if b1 ≤ 0xBF then
            some (Char.ofNat ((b0 - 0xC0) * 64 + (b1 - 0x80)), rest')
          else none
        else none
      | [] => none
    else if b0 ≤ 0xEF then
      match rest with
      | b1 :: b2 :: rest' =>
        if (if b0 = 0xE0 then 0xA0 else 0x80) ≤ b1 then
          if b1 ≤ (if b0 = 0xED then 0x9F else 0xBF) then
            if 0x80 ≤ b2 then
              if b2 ≤ 0xBF then
                some (Char.ofNat ((b0 - 0xE0) * 4096 + (b1 - 0x80) * 64 + (b2 - 0x80)), rest')
              else none
            else none
          else none
        else none
      | _ => none
    else if b0 ≤ 0xF4 then
      match rest with
      | b1 :: b2 :: b3 :: rest' =>
        if (if b0 = 0xF0 then 0x90 else 0x80) ≤ b1 then
          if b1 ≤ (if b0 = 0xF4 then 0x8F else 0xBF) then
            if 0x80 ≤ b2 then
              if b2 ≤ 0xBF then
                if 0x80 ≤ b3 then
                  if b3 ≤ 0xBF then
                    some (Char.ofNat
                      ((b0 - 0xF0) * 262144 + (b1 - 0x80) * 4096 +
                        (b2 - 0x80) * 64 + (b3 - 0x80)), rest')
                  else none
                else none
              else none
            else none
          else none
        else none
      | _ => none
    else none

/-- Fueled decoding loop: decode scalars until the byte list is
exhausted; any malformed sequence fails the whole decode. -/
def utf8DecodeList : Nat → List Nat → Option (List Char)
  | _, [] => some []
  | 0, _ :: _ => none
  | fuel + 1, b :: bs =>
    match utf8DecodeChar? (b :: bs) with
    | none => none
    | some (c, rest) =>
      match utf8DecodeList fuel rest with
      | none => none
      | some cs => some (c :: cs)

/-- Strict UTF-8 decoding of a whole byte list, as in Rust's
`String::from_utf8` (`Ok` ↦ `some`, `Err` ↦ `none`). -/
def utf8Decode? (bytes : List Nat) : Option String :=
  (utf8DecodeList bytes.length bytes).map String.mk

/-! ### JSON syntactic validity

Models the external JSON library call `Json::from_str` that
`InputData::auto` uses for its detection step: a recursive-descent
recogniser for JSON values (null, booleans, numbers without leading
zeros, strings with escapes, arrays, objects), with surrounding
whitespace allowed and trailing characters rejected.  Only success or
failure of the parse matters to `run.rs`, so the recogniser returns the
unconsumed input rather than a parse tree. -/

/-- JSON insignificant whitespace. -/
def isJsonWs (c : Char) : Bool :=
  c = ' ' || c = '\t' || c = '\n' || c = '\r'

/-- Drop leading JSON whitespace. -/
def skipWs : List Char → List Char
  | [] => []
  | c :: cs => if isJsonWs c then skipWs cs else c :: cs

/-- ASCII decimal digit. -/
def isDigitCh (c : Char) : Bool := '0' ≤ c && c ≤ '9'

/-- ASCII hexadecimal digit. -/
def isHexCh (c : Char) : Bool :=
  isDigitCh c || ('a' ≤ c && c ≤ 'f') || ('A' ≤ c && c ≤ 'F')

/-- Drop a (possibly empty) run of leading decimal digits. -/
def dropDigits : List Char → List Char
  | [] => []
  | c :: cs => if isDigitCh c then dropDigits cs else c :: cs

/-- Recognise the exponent part of a JSON number, if present. -/
def numExpPart (cs : List Char) : Option (List Char) :=
  match cs with
  | [] => some []
  | e :: rest =>
    if e = 'e' || e = 'E' then
      let rest2 := match rest with
        | s :: r => if s = '+' || s = '-' then r else s :: r
        | [] => []
      match rest2 with
      | d :: _ => if isDigitCh d then some (dropDigits rest2) else none
      | [] => none
    else some (e :: rest)

/-- Recognise the fraction and exponent parts of a JSON number. -/
def numFracPart (cs : List Char) : Option (List Char) :=
  match cs with
  | '.' :: rest =>
    (match rest with
     | d :: _ => if isDigitCh d then numExpPart (dropDigits rest) else none
     | [] => none)
  | _ => numExpPart cs

/-- Recognise a JSON number after the optional minus sign; leading
zeros are rejected, as the library's number scanner does. -/
def numTail (cs : List Char) : Option (List Char) :=
  match cs with
  | [] => none
  | c :: rest =>
    if c = '0' then numFracPart rest
    else if isDigitCh c then numFracPart (dropDigits rest)
    else none

/-- Recognise the remainder of a JSON string after the opening quote,
handling the escape sequences and rejecting raw control characters. -/
def stringTail : Nat → List Char → Option (List Char)
  | 0, _ => none
  | _ + 1, [] => none
  | fuel + 1, c :: cs =>
    if c = '"' then some cs
    else if c = '\\' then
      match cs with
      | [] => none
      | e :: cs' =>
        if e = '"' || e = '\\' || e = '/' || e = 'b' || e = 'f' ||
            e = 'n' || e = 'r' || e = 't' then
          stringTail fuel cs'
        else if e = 'u' then
          match cs' with
          | h1 :: h2 :: h3 :: h4 :: cs'' =>
            if isHexCh h1 && isHexCh h2 && isHexCh h3 && isHexCh h4 then
              stringTail fuel cs''
            else none
          | _ => none
        else none
    else if c.toNat < 0x20 then none
    else stringTail fuel cs

mutual

/-- Recognise one JSON value at the head of the input, returning the
unconsumed remainder. -/
def parseValue : Nat → List Char → Option (List Char)
  | 0, _ => none
  | fuel + 1, cs =>
    match cs with
    | [] => none
    | c :: rest =>
      if c = 'n' then
        match rest with
        | 'u' :: 'l' :: 'l' :: r => some r
        | _ => none
      else if c = 't' then
        match rest with
        | 'r' :: 'u' :: 'e' :: r => some r
        | _ => none
      else if c = 'f' then
        match rest with
        | 'a' :: 'l' :: 's' :: 'e' :: r => some r
        | _ => none
      else if c = '"' then stringTail (rest.length + 1) rest
      else if c = '-' then numTail rest
      else if isDigitCh c then numTail (c :: rest)
      else if c = '[' then
        match skipWs rest with
        | ']' :: r => some r
        | cs1 => arrayTail fuel cs1
      else if c = '{' then
        match skipWs rest with
        | '}' :: r => some r
        | cs1 => objectTail fuel cs1
      else none

/-- Recognise the elements of a non-empty JSON array up to and
including the closing bracket. -/
def arrayTail : Nat → List Char → Option (List Char)
  | 0, _ => none
  | fuel + 1, cs =>
    match parseValue fuel cs with
    | none => none
    | some rest =>
      match skipWs rest with
      | ',' :: r => arrayTail fuel (skipWs r)
      | ']' :: r => some r
      | _ => none

/-- Recognise the members of a non-empty JSON object up to and
including the closing brace. -/
def objectTail : Nat → List Char → Option (List Char)
  | 0, _ => none
  | fuel + 1, cs =>
    match cs with
    | '"' :: rest =>
      match stringTail (rest.length + 1) rest with
      | none => none
      | some r1 =>
        match skipWs r1 with
        | ':' :: r2 =>
          match parseValue fuel (skipWs r2) with
          | none => none
          | some r3 =>
            match skipWs r3 with
            | ',' :: r4 => objectTail fuel (skipWs r4)
            | '}' :: r4 => some r4
            | _ => none
        | _ => none
    | _ => none

end

/-- The external library call `Json::from_str(data).is_ok()`: whether
the whole string is one syntactically valid JSON value surrounded only
by whitespace. -/
def jsonFromStr (s : String) : Bool :=
  match parseValue (s.data.length + 1) (skipWs s.data) with
  | some rest => (skipWs rest).isEmpty
  | none => false

/-! ### The usage text and fatal errors -/

/-- The `USAGE` string of `run.rs`. -/
def USAGE : String :=
  "Usage:\n" ++
  "  algo run [options] <algorithm>\n" ++
  "\n" ++
  "  <algorithm> syntax: USERNAME/ALGONAME[/VERSION]\n" ++
  "  Recommend specifying a version since algorithm costs can change between minor versions.\n" ++
  "\n" ++
  "  Input Data Options:\n" ++
  "    There are option variants for specifying the type and source of input data.\n" ++
  "    If <file> is \x27-\x27, then input data will be read from STDIN.\n" ++
  "\n" ++
  "    Auto-Detect Data:\n" ++
  "      -d, --data <data>             If the data parses as JSON, assume JSON, else if the data\n" ++
  "                                      is valid UTF-8, assume text, else assume binary\n" ++
  "      -D, --data-file <file>        Same as --data, but the input data is read from a file\n" ++
  "\n" ++
  "    JSON Data:\n" ++
  "      -j, --json <data>             Algorithm input data as JSON (application/json)\n" ++
  "      -J, --json-file <file>        Same as --json, but the input data is read from a file\n" ++
  "\n" ++
  "    Text Data:\n" ++
  "      -t, --text <data>             Algorithm input data as text (text/plain)\n" ++
  "      -T, --text-file <file>        Same as --text, but the input data is read from a file\n" ++
  "\n" ++
  "    Binary Data:\n" ++
  "      -b, --binary <data>           Algorithm input data as binary (application/octet-stream)\n" ++
  "      -B, --binary-file <file>      Same as --data, but the input data is read from a file\n" ++
  "\n" ++
  "\n" ++
  "  Output Options:\n" ++
  "    By default, only the algorithm result is printed to STDOUT while additional notices may be\n" ++
  "    printed to STDERR.\n" ++
  "\n" ++
  "    --debug                         Print algorithm\x27s STDOUT (author-only)\n" ++
  "    --response-body                 Print HTTP response body (replaces result)\n" ++
  "    --response                      Print full HTTP response including headers (replaces result)\n" ++
  "    -s, --silence                   Suppress any output not explicitly requested (except result)\n" ++
  "    -m, --meta                      Print human-readable selection of metadata (e.g. duration)\n" ++
  "    -o, --output <file>             Print result to a file, implies --meta\n" ++
  "\n" ++
  "\n" ++
  "  Other Options:\n" ++
  "    --timeout <seconds>             Sets algorithm timeout\n" ++
  "\n" ++
  "  Examples:\n" ++
  "    algo kenny/factor/0.1.0 -t \x2779\x27                   Run algorithm with specified data input\n" ++
  "    algo anowell/Dijkstra -J routes.json              Run algorithm with file input\n" ++
  "    algo anowell/Dijkstra -J - < routes.json          Same as above but using STDIN\n" ++
  "    algo opencv/SmartThumbnail -B in.png -o out.png   Runs algorithm with binary data input\n"

/-- Message of the `die!` at `next_arg` when an input flag has no value. -/
def missingArgMsg : String := "Missing arg for input data option\n\n" ++ USAGE

/-- Message of the `die!` when no input data option was given. -/
def mustSpecifyMsg : String := "Must specify an input data option\n\n" ++ USAGE

/-- Message of the `die!` when several input data options were given. -/
def multipleMsg : String := "Multiple input data sources is currently not supported"

/-- The fatal-abort categories of the pipeline, one per `die!` call
site.  Messages that interpolate an operating-system error description
carry only their statically known part. -/
inductive CliError
  /-- `die!` with a usage-style message (`next_arg`, the input count
  checks, and Docopt failures). -/
  | usage (msg : String)
  /-- `die!("Read error: ...")`. -/
  | readError
  /-- `die!("Error opening <path>: ...")` in `open_file`. -/
  | openError (path : String)
  /-- `die!("Unable to create file: ...")` in `OutputDevice::new`. -/
  | createError (path : String)
  /-- `die!("Error calling algorithm: ...")` in `run_algorithm`. -/
  | callError (msg : String)
  /-- `die!("Response error: ...")` in the decoded-mode branch. -/
  | responseError
deriving DecidableEq

/-! ### Input payloads and the classifier entry points -/

/-- The `InputData` enum of `run.rs`. -/
inductive InputData
  | Text (s : String)
  | Json (s : String)
  | Binary (b : List Nat)
deriving DecidableEq

/-- `InputData::auto`: detect Json if the bytes are UTF-8 and parse as
JSON, else Text if they are UTF-8, else Binary.  The reader has already
been resolved to its bytes; read failures are handled at the call
sites via the source environment. -/
def InputData.auto (bytes : List Nat) : InputData :=
  match utf8Decode? bytes with
  | some data => if jsonFromStr data then InputData.Json data else InputData.Text data
  | none => InputData.Binary bytes

/-- `InputData::text`: `read_to_string` (which fails on non-UTF-8
bytes, a fatal read error) and classify as Text unconditionally. -/
def InputData.text (bytes : List Nat) : Except CliError InputData :=
  match utf8Decode? bytes with
  | some data => .ok (InputData.Text data)
  | none => .error .readError

/-- `InputData::json`: `read_to_string` and classify as Json
unconditionally — the text is not validated as JSON. -/
def InputData.json (bytes : List Nat) : Except CliError InputData :=
  match utf8Decode? bytes with
  | some data => .ok (InputData.Json data)
  | none => .error .readError

/-- `InputData::binary`: read all bytes and classify as Binary. -/
def InputData.binary (bytes : List Nat) : Except CliError InputData :=
  .ok (InputData.Binary bytes)

/-! ### The pre-pass scan over the argument list -/

/-- The observable file/stdin environment behind `get_src`: the bytes a
source descriptor resolves to, or `none` when opening or reading it
fails (both are fatal in the source).  The descriptor `-` denotes
standard input. -/
structure Env where
  fs : String → Option (List Nat)

/-- The pre-pass loop of `cmd_main`: walk the argument list, consume
the eight input-selecting flags together with their values into
`InputData` payloads (in order), and collect every other token for the
later Docopt parse.  Mirrors the `while let` / `match` loop of the
source; `next_arg` exhaustion and reader failures abort. -/
def scanLoop (env : Env) :
    List InputData → List String → List String →
    Except CliError (List InputData × List String)
  | inputs, others, [] => .ok (inputs, others)
  | inputs, others, flag :: rest =>
    match flag with
    | "-d" | "--data" =>
      match rest with
      | [] => .error (.usage missingArgMsg)
      | v :: rest' =>
        scanLoop env (inputs ++ [InputData.auto (strBytes v)]) others rest'
    | "-j" | "--json" =>
      match rest with
      | [] => .error (.usage missingArgMsg)
      | v :: rest' =>
        scanLoop env (inputs ++ [InputData.Json v]) others rest'
    | "-t" | "--text" =>
      match rest with
      | [] => .error (.usage missingArgMsg)
      | v :: rest' =>
        scanLoop env (inputs ++ [InputData.Text v]) others rest'
    | "-b" | "--binary" =>
      match rest with
      | [] => .error (.usage missingArgMsg)
      | v :: rest' =>
        scanLoop env (inputs ++ [InputData.Binary (strBytes v)]) others rest'
    | "-D" | "--data-file" =>
      match rest with
      | [] => .error (.usage missingArgMsg)
      | v :: rest' =>
        match env.fs v with
        | none => .error (.openError v)
        | some bytes =>
          scanLoop env (inputs ++ [InputData.auto bytes]) others rest'
    | "-J" | "--json-file" =>
      match rest with
      | [] => .error (.usage missingArgMsg)
      | v :: rest' =>
        match env.fs v with
        | none => .error (.openError v)
        | some bytes =>
          match InputData.json bytes with
          | .error e => .error e
          | .ok d => scanLoop env (inputs ++ [d]) others rest'
    | "-T" | "--text-file" =>
      match rest with
      | [] => .error (.usage missingArgMsg)
      | v :: rest' =>
        match env.fs v with
        | none => .error (.openError v)
        | some bytes =>
          match InputData.text bytes with
          | .error e => .error e
          | .ok d => scanLoop env (inputs ++ [d]) others rest'
    | "-B" | "--binary-file" =>
      match rest with
      | [] => .error (.usage missingArgMsg)
      | v :: rest' =>
        match env.fs v with
        | none => .error (.openError v)
        | some bytes =>
          match InputData.binary bytes with
          | .error e => .error e
          | .ok d => scanLoop env (inputs ++ [d]) others rest'
    | _ => scanLoop env inputs (others ++ [flag]) rest

/-! ### Content types, options, responses -/

/-- Top-level media types used by `run_algorithm`. -/
inductive TopLevel
  | Text
  | Application
deriving DecidableEq

/-- Media subtypes used by `run_algorithm`. -/
inductive SubLevel
  | Plain
  | Json
  | Ext (s : String)
deriving DecidableEq

/-- The `Mime(top, sub, params)` value of the client library. -/
structure Mime where
  top : TopLevel
  sub : SubLevel
  params : List (String × String)
deriving DecidableEq

/-- `AlgoOptions`: defaults to stdout capture disabled and no timeout;
`cmd_main` calls `enable_stdout` under `--debug` and `timeout` when the
flag is present. -/
structure AlgoOptions where
  stdout_enabled : Bool := false
  timeout : Option Nat := none
deriving DecidableEq

/-- JSON values as stored by the external JSON library, with numbers
kept in their rendered form (the library holds i64/u64/f64 numbers;
only their rendering matters to this pipeline). -/
inductive JsonVal
  | null
  | bool (b : Bool)
  | num (rendering : String)
  | str (s : String)
  | arr (xs : List JsonVal)
  | obj (kvs : List (String × JsonVal))

/-- Escaping applied by the library when serialising a JSON string. -/
def jsonEscape (s : String) : String :=
  String.mk (s.data.flatMap fun c =>
    if c = '"' then ['\\', '"']
    else if c = '\\' then ['\\', '\\']
    else [c])

mutual

/-- `Json::to_string`: the compact serialisation of a JSON value. -/
def JsonVal.toString : JsonVal → String
  | .null => "null"
  | .bool b => cond b "true" "false"
  | .num rendering => rendering
  | .str s => "\"" ++ jsonEscape s ++ "\""
  | .arr xs => "[" ++ jsonArrBody xs ++ "]"
  | .obj kvs => "\x7b" ++ jsonObjBody kvs ++ "\x7d"

/-- Comma-separated serialisation of array elements. -/
def jsonArrBody : List JsonVal → String
  | [] => ""
  | [x] => JsonVal.toString x
  | x :: y :: rest => JsonVal.toString x ++ "," ++ jsonArrBody (y :: rest)

/-- Comma-separated serialisation of object members. -/
def jsonObjBody : List (String × JsonVal) → String
  | [] => ""
  | [(k, v)] => "\"" ++ jsonEscape k ++ "\":" ++ JsonVal.toString v
  | (k, v) :: p :: rest =>
    "\"" ++ jsonEscape k ++ "\":" ++ JsonVal.toString v ++ "," ++ jsonObjBody (p :: rest)

end

/-- The `AlgoOutput` enum of the client library: the typed result field
of a decoded response. -/
inductive AlgoOutput
  | Json (j : JsonVal)
  | Text (t : String)
  | Binary (b : List Nat)

/-- Response metadata of a decoded response.  `duration` is the
rendered form of the fractional-seconds value as printed by
`format!("\x7b:.1\x7d", duration)` (its floating-point formatting is
kept abstract as the already-rendered string). -/
structure Metadata where
  alerts : Option (List String)
  stdout : Option String
  duration : String

/-- The decoded `AlgoResponse` envelope of the client library. -/
structure AlgoResponse where
  metadata : Metadata
  result : AlgoOutput

/-- The raw HTTP response returned by the client: status line parts,
header block and the raw body bytes (read to completion once by
`read_to_string`). -/
structure RawResponse where
  version : String
  status : String
  headers : String
  body : List Nat
deriving DecidableEq

/-- The Docopt-decoded `Args` struct (input flags have already been
stripped by the pre-pass). -/
structure Args where
  arg_algorithm : String
  flag_response_body : Bool
  flag_response : Bool
  flag_silence : Bool
  flag_meta : Bool
  flag_debug : Bool
  flag_output : Option String
  flag_timeout : Option Nat
deriving DecidableEq

/-! ### Observable events

Every externally visible action of one invocation, in order: creating
the output file, the single remote call, writes through the
`OutputDevice` (the Output Sink), lines printed to standard error
(`stderrln!`), and text printed to the process standard output
(`print!` / `println!`). -/

/-- One observable action of the pipeline. -/
inductive Event
  /-- `File::create` performed by `OutputDevice::new`. -/
  | fileCreate (path : String)
  /-- The single `pipe_as` remote call of `run_algorithm`. -/
  | remoteCall (algo : String) (body : List Nat) (mime : Mime) (opts : AlgoOptions)
  /-- Bytes written through the `OutputDevice` (file or stdout). -/
  | sinkWrite (bytes : List Nat)
  /-- A line printed to standard error by `stderrln!`. -/
  | stderrLine (s : String)
  /-- Text printed to the process standard output by `print!`. -/
  | stdoutPrint (s : String)
  /-- A line printed to the process standard output by `println!`. -/
  | stdoutLine (s : String)
deriving DecidableEq

/-- `OutputDevice::write`: one raw write to the Output Sink. -/
def OutputDevice.write (bytes : List Nat) : List Event :=
  [Event.sinkWrite bytes]

/-- `OutputDevice::writeln`: `write(bytes)` followed by `write(b"\n")`. -/
def OutputDevice.writeln (bytes : List Nat) : List Event :=
  OutputDevice.write bytes ++ OutputDevice.write [10]

/-- The bytes that reach the Output Sink in a trace, in order. -/
def sinkBytes (events : List Event) : List Nat :=
  events.flatMap fun e =>
    match e with
    | Event.sinkWrite bytes => bytes
    | _ => []

/-- The events of a trace that write to the Output Sink. -/
def sinkEvents (events : List Event) : List Event :=
  events.filter fun e =>
    match e with
    | Event.sinkWrite _ => true
    | _ => false

/-! ### Dispatch -/

/-- The payload→request mapping of `run_algorithm`: each `InputData`
variant is piped with its bytes unchanged under its content type
(`text/plain`, `application/json`, `application/octet-stream`). -/
def pipeBody : InputData → List Nat × Mime
  | InputData.Text text => (strBytes text, ⟨TopLevel.Text, SubLevel.Plain, []⟩)
  | InputData.Json json => (strBytes json, ⟨TopLevel.Application, SubLevel.Json, []⟩)
  | InputData.Binary bytes =>
    (bytes, ⟨TopLevel.Application, SubLevel.Ext "octet-stream", []⟩)

/-- `Run::run_algorithm`: set the options, perform exactly one
`pipe_as` call with the mapped body and content type, and abort on a
transport error.  The remote capability is the parameter `net`. -/
def run_algorithm
    (net : String → List Nat → Mime → AlgoOptions → Except String RawResponse)
    (algo : String) (input_data : InputData) (opts : AlgoOptions) :
    List Event × Except CliError RawResponse :=
  let (body, mime) := pipeBody input_data
  ([Event.remoteCall algo body mime opts],
    match net algo body mime opts with
    | .ok response => .ok response
    | .error err => .error (.callError err))

/-! ### Response rendering -/

/-- Rendering of the decoded `result` field: Json and Text via
`writeln`, Binary via `write`. -/
def resultEvents : AlgoOutput → List Event
  | AlgoOutput.Json json => OutputDevice.writeln (strBytes (JsonVal.toString json))
  | AlgoOutput.Text text => OutputDevice.writeln (strBytes text)
  | AlgoOutput.Binary bytes => OutputDevice.write bytes

/-- The duration summary line printed under `--meta` (or an output file
without `--silence`). -/
def durationLine (m : Metadata) : String :=
  "Completed in " ++ m.duration ++ " seconds"

/-- The decoded-mode success path of `cmd_main`: alerts to standard
error unless silenced, captured stdout to the process standard output
under `--debug`, the duration summary under `--meta` or an output file
without `--silence`, then the result to the Output Sink. -/
def renderDecoded (args : Args) (response : AlgoResponse) : List Event :=
  (match response.metadata.alerts with
   | some alerts =>
     if args.flag_silence then [] else alerts.map Event.stderrLine
   | none => []) ++
  (match response.metadata.stdout with
   | some stdout => if args.flag_debug then [Event.stdoutPrint stdout] else []
   | none => []) ++
  (if args.flag_meta || (args.flag_output.isSome && !args.flag_silence) then
     [Event.stdoutLine (durationLine response.metadata)]
   else []) ++
  resultEvents response.result

/-- The `--response` preamble: `format!("\x7b\x7d \x7b\x7d\n\x7b\x7d",
version, status, headers)`. -/
def preambleOf (response : RawResponse) : String :=
  response.version ++ " " ++ response.status ++ "\n" ++ response.headers

/-- The response-handling tail of `cmd_main`: `--response` and
`--response-body` emit the raw body (with the preamble first under
`--response`); otherwise the body is parsed into an `AlgoResponse`
(via the library parse, the parameter `parseAlgo`) and rendered in
decoded mode, a parse failure being the fatal response error. -/
def renderResponse (args : Args) (response : RawResponse) (jsonResponse : String)
    (parseAlgo : String → Except String AlgoResponse) :
    Except CliError (List Event) :=
  if args.flag_response || args.flag_response_body then
    .ok ((if args.flag_response then
            OutputDevice.writeln (strBytes (preambleOf response))
          else []) ++
         OutputDevice.writeln (strBytes jsonResponse))
  else
    match parseAlgo jsonResponse with
    | .ok decoded => .ok (renderDecoded args decoded)
    | .error _ => .error .responseError

/-! ### The whole `cmd_main` pipeline -/

/-- `Run::cmd_main` as a trace-producing function: the pre-pass scan,
the Docopt parse of the remaining tokens (the parameter `docopt`), the
exactly-one-input validation, option building, output-device creation
(`createOk` tells whether `File::create` succeeds on a path), the
single remote call, the body read, and the response rendering.  The
result is the ordered event trace performed before terminating,
together with the outcome. -/
def cmdMain (env : Env) (docopt : List String → Except CliError Args)
    (createOk : String → Bool)
    (net : String → List Nat → Mime → AlgoOptions → Except String RawResponse)
    (parseAlgo : String → Except String AlgoResponse)
    (argv : List String) : List Event × Except CliError Unit :=
  match scanLoop env [] [] argv with
  | .error e => ([], .error e)
  | .ok (input_args, other_args) =>
    match docopt other_args with
    | .error e => ([], .error e)
    | .ok args =>
      match input_args with
      | [] => ([], .error (.usage mustSpecifyMsg))
      | _ :: _ :: _ => ([], .error (.usage multipleMsg))
      | [input] =>
        let opts : AlgoOptions :=
          { stdout_enabled := args.flag_debug, timeout := args.flag_timeout }
        let deviceInit : Except CliError (List Event) :=
          match args.flag_output with
          | some path =>
            if createOk path then .ok [Event.fileCreate path]
            else .error (.createError path)
          | none => .ok []
        match deviceInit with
        | .error e => ([], .error e)
        | .ok createEvents =>
          let (callEvents, call) := run_algorithm net args.arg_algorithm input opts
          match call with
          | .error e => (createEvents ++ callEvents, .error e)
          | .ok response =>
            match utf8Decode? response.body with
            | none => (createEvents ++ callEvents, .error .readError)
            | some jsonResponse =>
              match renderResponse args response jsonResponse parseAlgo with
              | .error e => (createEvents ++ callEvents, .error e)
              | .ok renderEvents =>
                (createEvents ++ callEvents ++ renderEvents, .ok ())

/-! ### Substring containment (for the wording of error messages) -/

/-- Whether `needle` is a leading segment of `hay`. -/
def leadsList : List Char → List Char → Bool
  | [], _ => true
  | _ :: _, [] => false
  | a :: as, b :: bs => a == b && leadsList as bs

/-- Whether `needle` occurs contiguously inside `hay`. -/
def containsSub (needle : List Char) : List Char → Bool
  | [] => leadsList needle []
  | c :: cs => leadsList needle (c :: cs) || containsSub needle cs

/-- The alerts block of `renderDecoded`. -/
def alertsBlock (args : Args) (response : AlgoResponse) : List Event :=
  match response.metadata.alerts with
  | some alerts =>
    if args.flag_silence then [] else alerts.map Event.stderrLine
  | none => []

/-- The captured-stdout block of `renderDecoded`. -/
def stdoutBlock (args : Args) (response : AlgoResponse) : List Event :=
  match response.metadata.stdout with
  | some stdout => if args.flag_debug then [Event.stdoutPrint stdout] else []
  | none => []

/-- The duration-summary block of `renderDecoded`. -/
def metaBlock (args : Args) (response : AlgoResponse) : List Event :=
  if args.flag_meta || (args.flag_output.isSome && !args.flag_silence) then
    [Event.stdoutLine (durationLine response.metadata)]
  else []

/-- A concrete decoded-mode invocation: `--meta` and `--debug` set, no
`--silence`, no `--output`. -/
def argsMetaDebug : Args :=
  { arg_algorithm := "demo/algo", flag_response_body := false,
    flag_response := false, flag_silence := false, flag_meta := true,
    flag_debug := true, flag_output := none, flag_timeout := none }

/-- A concrete decoded response with one alert, captured stdout and a
duration. -/
def respMetaDebug : AlgoResponse :=
  { metadata := { alerts := some ["x"], stdout := some "captured",
                  duration := "1.5" },
    result := AlgoOutput.Text "42" }

/-- The sixteen spellings of the eight input-selecting flags. -/
def inputFlagTokens : List String :=
  ["-d", "--data", "-j", "--json", "-t", "--text", "-b", "--binary",
   "-D", "--data-file", "-J", "--json-file", "-T", "--text-file",
   "-B", "--binary-file"]

/-! ## Claims -/

/-- **C1.** The auto-detect classifier follows the strict two-step
order: bytes that are valid UTF-8 and parse as JSON classify as Json;
valid UTF-8 that does not parse as JSON classifies as Text; invalid
UTF-8 classifies as Binary — so a valid-UTF-8 JSON document is never
classified as Text or Binary. -/
theorem auto_detect_strict_order (bytes : List Nat) :
    (∀ s, utf8Decode? bytes = some s → jsonFromStr s = true →
      InputData.auto bytes = InputData.Json s) ∧
    (∀ s, utf8Decode? bytes = some s → jsonFromStr s = false →
      InputData.auto bytes = InputData.Text s) ∧
    (utf8Decode? bytes = none → InputData.auto bytes = InputData.Binary bytes) ∧
    (∀ s, utf8Decode? bytes = some s → jsonFromStr s = true →
      (∀ t, InputData.auto bytes ≠ InputData.Text t) ∧
      (∀ b, InputData.auto bytes ≠ InputData.Binary b)) := by
  refine ⟨?_, ?_, ?_, ?_⟩
  · intro s h hj
    unfold InputData.auto
    rw [h]
    simp [hj]
  · intro s h hj
    unfold InputData.auto
    rw [h]
    simp [hj]
  · intro h
    unfold InputData.auto
    rw [h]
  · intro s h hj
    unfold InputData.auto
    rw [h]
    simp [hj]

/-- Witness for C1 at the concrete JSON document `{}` (bytes
`[123, 125]`). -/
theorem auto_detect_strict_order_witness :
    InputData.auto [123, 125] = InputData.Json "\x7b\x7d" :=
  (auto_detect_strict_order [123, 125]).1 "\x7b\x7d" (by decide) (by decide)

/-- **C7.** The `json` entry point classifies any readable text as Json
unconditionally, without validating that the text is valid JSON. -/
theorem json_entry_no_validation (bytes : List Nat) (s : String)
    (h : utf8Decode? bytes = some s) :
    InputData.json bytes = .ok (InputData.Json s) := by
  unfold InputData.json
  rw [h]

/-- Witness for C7 at the syntactically invalid JSON text
`not json`. -/
theorem json_entry_no_validation_witness :
    jsonFromStr "not json" = false ∧
    InputData.json (strBytes "not json") = .ok (InputData.Json "not json") :=
  ⟨by decide, json_entry_no_validation (strBytes "not json") "not json" (by decide)⟩

/-- **C6.** Each `InputData` variant is submitted with its bytes
unchanged under its content-type tag (text/plain, application/json,
application/octet-stream), and literal `--json` data scans to a Json
payload whose submitted body is byte-identical to the supplied data. -/
theorem dispatch_content_type_roundtrip :
    (∀ env d, scanLoop env [] [] ["-j", d] = .ok ([InputData.Json d], [])) ∧
    (∀ d, pipeBody (InputData.Json d) =
      (strBytes d, ⟨TopLevel.Application, SubLevel.Json, []⟩)) ∧
    (∀ t, pipeBody (InputData.Text t) =
      (strBytes t, ⟨TopLevel.Text, SubLevel.Plain, []⟩)) ∧
    (∀ b, pipeBody (InputData.Binary b) =
      (b, ⟨TopLevel.Application, SubLevel.Ext "octet-stream", []⟩)) ∧
    (∀ net algo d opts,
      (run_algorithm net algo d opts).1 =
        [Event.remoteCall algo (pipeBody d).1 (pipeBody d).2 opts]) := by
  refine ⟨fun env d => rfl, fun d => rfl, fun t => rfl, fun b => rfl, ?_⟩
  intro net algo d opts
  unfold run_algorithm
  obtain ⟨body, mime⟩ := pipeBody d
  rfl

/-- **C3.** Body-only mode emits the raw, unparsed body (via `writeln`);
full-response mode emits the preamble (version, status, headers) then
the raw body; in both modes the decoded-mode parse is never attempted
(the rendering does not depend on the parse function at all). -/
theorem raw_response_modes (args : Args) (response : RawResponse)
    (jsonResponse : String)
    (parseAlgo parseAlgo' : String → Except String AlgoResponse) :
    (args.flag_response = false → args.flag_response_body = true →
      renderResponse args response jsonResponse parseAlgo =
        .ok (OutputDevice.writeln (strBytes jsonResponse))) ∧
    (args.flag_response = true →
      renderResponse args response jsonResponse parseAlgo =
        .ok (OutputDevice.writeln (strBytes (preambleOf response)) ++
          OutputDevice.writeln (strBytes jsonResponse))) ∧
    ((args.flag_response || args.flag_response_body) = true →
      renderResponse args response jsonResponse parseAlgo =
        renderResponse args response jsonResponse parseAlgo') := by
  refine ⟨?_, ?_, ?_⟩
  · intro h1 h2
    unfold renderResponse
    rw [h1, h2]
    simp
  · intro h1
    unfold renderResponse
    rw [h1]
    simp
  · intro h
    unfold renderResponse
    rw [h]
    simp

/-- Witness for C3: a concrete body-only invocation emits exactly the
raw body bytes followed by the `writeln` newline. -/
theorem raw_response_modes_witness :
    renderResponse
      { arg_algorithm := "demo/algo", flag_response_body := true,
        flag_response := false, flag_silence := false, flag_meta := false,
        flag_debug := false, flag_output := none, flag_timeout := none }
      { version := "HTTP/1.1", status := "200 OK", headers := "", body := [] }
      "raw body" (fun _ => .error "never used") =
      .ok (OutputDevice.writeln (strBytes "raw body")) :=
  (raw_response_modes _ _ "raw body" _ (fun _ => .error "also unused")).1 rfl rfl

/-! ### Trace helper lemmas -/

theorem sinkBytes_append (a b : List Event) :
    sinkBytes (a ++ b) = sinkBytes a ++ sinkBytes b := by
  simp [sinkBytes]

theorem sinkEvents_append (a b : List Event) :
    sinkEvents (a ++ b) = sinkEvents a ++ sinkEvents b := by
  simp [sinkEvents]

theorem sinkEvents_stderr_map (l : List String) :
    sinkEvents (l.map Event.stderrLine) = [] := by
  induction l with
  | nil => rfl
  | cons a l ih => simp [sinkEvents] at ih ⊢; try exact ih

theorem renderDecoded_eq_blocks (args : Args) (response : AlgoResponse) :
    renderDecoded args response =
      alertsBlock args response ++ stdoutBlock args response ++
        metaBlock args response ++ resultEvents response.result := rfl

theorem sinkEvents_alertsBlock (args : Args) (response : AlgoResponse) :
    sinkEvents (alertsBlock args response) = [] := by
  unfold alertsBlock
  rcases response.metadata.alerts with _ | al
  · rfl
  · by_cases hs : args.flag_silence
    · simp [hs]
      rfl
    · simp [hs, sinkEvents_stderr_map]

theorem sinkEvents_stdoutBlock (args : Args) (response : AlgoResponse) :
    sinkEvents (stdoutBlock args response) = [] := by
  unfold stdoutBlock
  rcases response.metadata.stdout with _ | st
  · rfl
  · by_cases hd : args.flag_debug <;> simp [hd] <;> rfl

theorem sinkEvents_metaBlock (args : Args) (response : AlgoResponse) :
    sinkEvents (metaBlock args response) = [] := by
  unfold metaBlock
  split <;> rfl

theorem sinkEvents_resultEvents (result : AlgoOutput) :
    sinkEvents (resultEvents result) = resultEvents result := by
  cases result <;> rfl

/-- Only the rendered result reaches the Output Sink in decoded mode. -/
theorem renderDecoded_sinkEvents (args : Args) (response : AlgoResponse) :
    sinkEvents (renderDecoded args response) = resultEvents response.result := by
  rw [renderDecoded_eq_blocks, sinkEvents_append, sinkEvents_append,
    sinkEvents_append, sinkEvents_alertsBlock, sinkEvents_stdoutBlock,
    sinkEvents_metaBlock, sinkEvents_resultEvents]
  rfl

theorem sinkBytes_of_sinkEvents (l : List Event) :
    sinkBytes (sinkEvents l) = sinkBytes l := by
  induction l with
  | nil => rfl
  | cons e l ih =>
    cases e <;> simp [sinkEvents, sinkBytes, List.filter] at ih ⊢ <;> exact ih

/-- **C5.** Rendering a decoded result writes a Binary result with no
trailing newline, and a Text or Json result with exactly one trailing
newline byte appended. -/
theorem result_render_newline (args : Args) (response : AlgoResponse) :
    sinkBytes (renderDecoded args response) =
      (match response.result with
       | AlgoOutput.Json json => strBytes (JsonVal.toString json) ++ [10]
       | AlgoOutput.Text text => strBytes text ++ [10]
       | AlgoOutput.Binary bytes => bytes) := by
  rw [← sinkBytes_of_sinkEvents, renderDecoded_sinkEvents]
  cases response.result <;>
    simp [resultEvents, OutputDevice.writeln, OutputDevice.write, sinkBytes]

/-! ### C4: destination of alerts, captured stdout and the duration line -/

/-- Counterexample to C4 as stated: at this concrete decoded-mode
invocation the duration summary and the captured-stdout display are
emitted to the process standard output, not to the standard-error
diagnostics stream (the stream the usage text reserves for notices), so
it is not the case that all three emissions go to the diagnostics
stream. -/
theorem decoded_stream_separation_cex :
    Event.stdoutLine "Completed in 1.5 seconds" ∈
        renderDecoded argsMetaDebug respMetaDebug ∧
    Event.stderrLine "Completed in 1.5 seconds" ∉
        renderDecoded argsMetaDebug respMetaDebug ∧
    Event.stdoutPrint "captured" ∈ renderDecoded argsMetaDebug respMetaDebug ∧
    Event.stderrLine "captured" ∉ renderDecoded argsMetaDebug respMetaDebug := by
  decide

/-- Membership shape of the alerts block: only alert strings, on
standard error, and only without `--silence`. -/
theorem mem_alertsBlock {args : Args} {response : AlgoResponse} {e : Event}
    (h : e ∈ alertsBlock args response) :
    args.flag_silence = false ∧
    ∃ al, response.metadata.alerts = some al ∧
      ∃ s, s ∈ al ∧ e = Event.stderrLine s := by
  unfold alertsBlock at h
  rcases hx : response.metadata.alerts with _ | al <;> rw [hx] at h
  · simp at h
  · by_cases hsil : args.flag_silence
    · simp [hsil] at h
    · simp only [hsil, Bool.false_eq_true, if_false, List.mem_map] at h
      obtain ⟨s, hs, he⟩ := h
      exact ⟨by simpa using hsil, al, rfl, s, hs, he.symm⟩

/-- Membership shape of the captured-stdout block: the captured text,
on the process standard output, only under `--debug`. -/
theorem mem_stdoutBlock {args : Args} {response : AlgoResponse} {e : Event}
    (h : e ∈ stdoutBlock args response) :
    args.flag_debug = true ∧
    ∃ st, response.metadata.stdout = some st ∧ e = Event.stdoutPrint st := by
  unfold stdoutBlock at h
  rcases hx : response.metadata.stdout with _ | st <;> rw [hx] at h
  · simp at h
  · by_cases hd : args.flag_debug
    · simp [hd] at h
      exact ⟨hd, st, rfl, h⟩
    · simp [hd] at h

/-- Membership shape of the duration block: only the duration line, on
the process standard output. -/
theorem mem_metaBlock {args : Args} {response : AlgoResponse} {e : Event}
    (h : e ∈ metaBlock args response) :
    e = Event.stdoutLine (durationLine response.metadata) := by
  unfold metaBlock at h
  split at h
  · simpa using h
  · simp at h

/-- Membership shape of the result block: only Output Sink writes. -/
theorem mem_resultEvents {result : AlgoOutput} {e : Event}
    (h : e ∈ resultEvents result) : ∃ b, e = Event.sinkWrite b := by
  cases result with
  | Json j =>
    simp [resultEvents, OutputDevice.writeln, OutputDevice.write] at h
    rcases h with h | h <;> exact ⟨_, h⟩
  | Text t =>
    simp [resultEvents, OutputDevice.writeln, OutputDevice.write] at h
    rcases h with h | h <;> exact ⟨_, h⟩
  | Binary b =>
    simp [resultEvents, OutputDevice.write] at h
    exact ⟨_, h⟩

/-- **C4 (amended).** In decoded mode, alert strings go to the
standard-error stream (and only alerts appear there), the
captured-stdout display and the duration summary go to the process
standard output (never standard error), and the Output Sink receives
only the rendered result. -/
theorem decoded_stream_separation (args : Args) (response : AlgoResponse) :
    sinkEvents (renderDecoded args response) = resultEvents response.result ∧
    (∀ s, Event.stderrLine s ∈ renderDecoded args response →
      args.flag_silence = false ∧
      ∃ alerts, response.metadata.alerts = some alerts ∧ s ∈ alerts) ∧
    (∀ s, Event.stdoutPrint s ∈ renderDecoded args response →
      args.flag_debug = true ∧ response.metadata.stdout = some s) ∧
    (∀ s, Event.stdoutLine s ∈ renderDecoded args response →
      s = durationLine response.metadata) ∧
    ((args.flag_meta || (args.flag_output.isSome && !args.flag_silence)) = true →
      Event.stdoutLine (durationLine response.metadata) ∈
        renderDecoded args response) := by
  refine ⟨renderDecoded_sinkEvents args response, ?_, ?_, ?_, ?_⟩
  · intro s hs
    rw [renderDecoded_eq_blocks] at hs
    simp only [List.append_assoc, List.mem_append] at hs
    rcases hs with h | h | h | h
    · obtain ⟨hsil, al, hal, s', hs', he⟩ := mem_alertsBlock h
      injection he with h1
      subst h1
      exact ⟨hsil, al, hal, hs'⟩
    · obtain ⟨-, st, -, he⟩ := mem_stdoutBlock h
      simp at he
    · have he := mem_metaBlock h
      simp at he
    · obtain ⟨b, he⟩ := mem_resultEvents h
      simp at he
  · intro s hs
    rw [renderDecoded_eq_blocks] at hs
    simp only [List.append_assoc, List.mem_append] at hs
    rcases hs with h | h | h | h
    · obtain ⟨-, al, -, s', -, he⟩ := mem_alertsBlock h
      simp at he
    · obtain ⟨hd, st, hst, he⟩ := mem_stdoutBlock h
      injection he with h1
      subst h1
      exact ⟨hd, hst⟩
    · have he := mem_metaBlock h
      simp at he
    · obtain ⟨b, he⟩ := mem_resultEvents h
      simp at he
  · intro s hs
    rw [renderDecoded_eq_blocks] at hs
    simp only [List.append_assoc, List.mem_append] at hs
    rcases hs with h | h | h | h
    · obtain ⟨-, al, -, s', -, he⟩ := mem_alertsBlock h
      simp at he
    · obtain ⟨-, st, -, he⟩ := mem_stdoutBlock h
      simp at he
    · have he := mem_metaBlock h
      injection he with h1
    · obtain ⟨b, he⟩ := mem_resultEvents h
      simp at he
  · intro hcond
    rw [renderDecoded_eq_blocks]
    simp only [List.append_assoc, List.mem_append]
    refine Or.inr (Or.inr (Or.inl ?_))
    unfold metaBlock
    rw [hcond]
    simp

/-- Witness for C4 (amended): at the concrete invocation the alert
`x` on standard error reveals silence off and `x` among the alerts. -/
theorem decoded_stream_separation_witness :
    argsMetaDebug.flag_silence = false ∧
    ∃ alerts, respMetaDebug.metadata.alerts = some alerts ∧ "x" ∈ alerts :=
  (decoded_stream_separation argsMetaDebug respMetaDebug).2.1 "x" (by decide)

/-! ### C8: input flag missing its value -/

set_option maxRecDepth 10000 in
/-- **C8.** Whenever the pre-pass scan reaches an input-selecting flag
as the last remaining token (so its required value is missing), it
aborts with the missing-argument usage error, whose text (via the
appended usage block) contains the flag in question. -/
theorem missing_value_aborts (env : Env) (inputs : List InputData)
    (others : List String) (f : String) (hf : f ∈ inputFlagTokens) :
    scanLoop env inputs others [f] = .error (.usage missingArgMsg) ∧
    containsSub f.data missingArgMsg.data = true := by
  simp only [inputFlagTokens, List.mem_cons, List.not_mem_nil, or_false] at hf
  rcases hf with rfl | rfl | rfl | rfl | rfl | rfl | rfl | rfl | rfl | rfl |
    rfl | rfl | rfl | rfl | rfl | rfl <;>
    exact ⟨rfl, by decide⟩

set_option maxRecDepth 10000 in
/-- Witness for C8: the flag `-d` without a value. -/
theorem missing_value_aborts_witness :
    scanLoop ⟨fun _ => none⟩ [] [] ["-d"] = .error (.usage missingArgMsg) ∧
    containsSub "-d".data missingArgMsg.data = true :=
  missing_value_aborts ⟨fun _ => none⟩ [] [] "-d" (by decide)

/-! ### C2: exactly one input source before dispatch -/

/-- **C2.** After the pre-pass scan (and a successful Docopt parse of
the remaining tokens), zero collected input payloads aborts with the
must-specify usage error and more than one aborts with the
multiple-sources error, in both cases with an empty event trace — so
no remote call is attempted — and any remote call appearing in a trace
of `cmdMain` implies the scan produced exactly one payload. -/
theorem input_count_validation (env : Env)
    (docopt : List String → Except CliError Args) (createOk : String → Bool)
    (net : String → List Nat → Mime → AlgoOptions → Except String RawResponse)
    (parseAlgo : String → Except String AlgoResponse) (argv : List String)
    (inputs : List InputData) (others : List String) (args : Args)
    (hscan : scanLoop env [] [] argv = .ok (inputs, others))
    (hdoc : docopt others = .ok args) :
    (inputs = [] →
      cmdMain env docopt createOk net parseAlgo argv =
        ([], .error (.usage mustSpecifyMsg))) ∧
    (2 ≤ inputs.length →
      cmdMain env docopt createOk net parseAlgo argv =
        ([], .error (.usage multipleMsg))) ∧
    (∀ algo body mime opts,
      Event.remoteCall algo body mime opts ∈
          (cmdMain env docopt createOk net parseAlgo argv).1 →
      ∃ d, inputs = [d]) := by
  refine ⟨?_, ?_, ?_⟩
  · rintro rfl
    simp only [cmdMain, hscan, hdoc]
  · intro h
    rcases inputs with _ | ⟨a, _ | ⟨b, rest⟩⟩
    · simp at h
    · simp at h
    · simp only [cmdMain, hscan, hdoc]
  · intro algo body mime opts hmem
    rcases inputs with _ | ⟨a, _ | ⟨b, rest⟩⟩
    · exfalso
      simp only [cmdMain, hscan, hdoc] at hmem
      simp at hmem
    · exact ⟨a, rfl⟩
    · exfalso
      simp only [cmdMain, hscan, hdoc] at hmem
      simp at hmem

/-- Witness for C2: an invocation with no input-selecting flag at all
aborts with the must-specify usage error and an empty trace. -/
theorem input_count_validation_witness :
    cmdMain ⟨fun _ => none⟩
      (fun _ => .ok
        { arg_algorithm := "demo/algo", flag_response_body := false,
          flag_response := false, flag_silence := false, flag_meta := false,
          flag_debug := false, flag_output := none, flag_timeout := none })
      (fun _ => true) (fun _ _ _ _ => .error "unreachable")
      (fun _ => .error "unreachable") ["demo/algo"] =
      ([], .error (.usage mustSpecifyMsg)) :=
  (input_count_validation _ _ _ _ _ ["demo/algo"] [] ["demo/algo"] _
    rfl rfl).1 rfl

/-! ### C10: output file creation precedes the remote call -/

/-- **C10.** With an explicit output file selected, the output device
is created (truncate-creating the file) strictly before the remote
call is dispatched, so both a transport failure and a response-decode
failure still leave the file-creation event in the trace. -/
theorem output_file_before_dispatch (env : Env)
    (docopt : List String → Except CliError Args) (createOk : String → Bool)
    (net : String → List Nat → Mime → AlgoOptions → Except String RawResponse)
    (parseAlgo : String → Except String AlgoResponse) (argv : List String)
    (d : InputData) (others : List String) (args : Args) (p : String)
    (hscan : scanLoop env [] [] argv = .ok ([d], others))
    (hdoc : docopt others = .ok args)
    (hout : args.flag_output = some p)
    (hcreate : createOk p = true) :
    (∀ msg, (∀ a b m o, net a b m o = .error msg) →
      cmdMain env docopt createOk net parseAlgo argv =
        ([Event.fileCreate p,
          Event.remoteCall args.arg_algorithm (pipeBody d).1 (pipeBody d).2
            ⟨args.flag_debug, args.flag_timeout⟩],
         .error (.callError msg)) ∧
      Event.fileCreate p ∈ (cmdMain env docopt createOk net parseAlgo argv).1) ∧
    (∀ response jsonResponse em,
      net args.arg_algorithm (pipeBody d).1 (pipeBody d).2
          ⟨args.flag_debug, args.flag_timeout⟩ = .ok response →
      utf8Decode? response.body = some jsonResponse →
      args.flag_response = false → args.flag_response_body = false →
      parseAlgo jsonResponse = .error em →
      cmdMain env docopt createOk net parseAlgo argv =
        ([Event.fileCreate p,
          Event.remoteCall args.arg_algorithm (pipeBody d).1 (pipeBody d).2
            ⟨args.flag_debug, args.flag_timeout⟩],
         .error .responseError) ∧
      Event.fileCreate p ∈ (cmdMain env docopt createOk net parseAlgo argv).1) := by
  rcases hpb : pipeBody d with ⟨body, mime⟩
  constructor
  · intro msg hmsg
    have hmain : cmdMain env docopt createOk net parseAlgo argv =
        ([Event.fileCreate p,
          Event.remoteCall args.arg_algorithm body mime
            ⟨args.flag_debug, args.flag_timeout⟩],
         .error (.callError msg)) := by
      simp only [cmdMain, run_algorithm, hscan, hdoc, hout, hcreate, hpb, hmsg]
      simp
    refine ⟨hmain, ?_⟩
    rw [hmain]
    simp
  · intro response jsonResponse em hnet hbody hresp hrespb hparse
    dsimp only at hnet
    have hmain : cmdMain env docopt createOk net parseAlgo argv =
        ([Event.fileCreate p,
          Event.remoteCall args.arg_algorithm body mime
            ⟨args.flag_debug, args.flag_timeout⟩],
         .error .responseError) := by
      simp only [cmdMain, run_algorithm, renderResponse, hscan, hdoc, hout,
        hcreate, hpb, hnet, hbody, hresp, hrespb, hparse]
      simp
    refine ⟨hmain, ?_⟩
    rw [hmain]
    simp

/-- Witness for C10: a concrete invocation with `-t x`, an output file
and a failing transport still records the file creation, before the
remote call. -/
theorem output_file_before_dispatch_witness :
    cmdMain ⟨fun _ => none⟩
      (fun _ => .ok
        { arg_algorithm := "demo/algo", flag_response_body := false,
          flag_response := false, flag_silence := false, flag_meta := false,
          flag_debug := false, flag_output := some "out.png",
          flag_timeout := none })
      (fun _ => true) (fun _ _ _ _ => .error "connection refused")
      (fun _ => .error "unreachable") ["-t", "x", "demo/algo"] =
      ([Event.fileCreate "out.png",
        Event.remoteCall "demo/algo" (strBytes "x")
          ⟨TopLevel.Text, SubLevel.Plain, []⟩ ⟨false, none⟩],
       .error (.callError "connection refused")) :=
  ((output_file_before_dispatch _ _ _ _ _ ["-t", "x", "demo/algo"]
      (InputData.Text "x") ["demo/algo"] _ "out.png" rfl rfl rfl rfl).1
    "connection refused" (fun _ _ _ _ => rfl)).1

/-! ### C9: decoding an encoded string round-trips -/

theorem utf8EncodeChar_ne_nil (c : Char) : utf8EncodeChar c ≠ [] := by
  simp only [utf8EncodeChar]
  split_ifs <;> simp

/-- Decoding the UTF-8 encoding of a scalar recovers the scalar and
leaves the remaining bytes untouched. -/
theorem utf8DecodeChar?_encode (c : Char) (r : List Nat) :
    utf8DecodeChar? (utf8EncodeChar c ++ r) = some (c, r) := by
  have hvalid : c.toNat < 0xD800 ∨ (0xDFFF < c.toNat ∧ c.toNat < 0x110000) :=
    c.valid
  have hofn : Char.ofNat c.toNat = c := Char.ofNat_toNat c
  simp only [utf8EncodeChar]
  generalize hvv : c.toNat = v at hvalid hofn ⊢
  by_cases h1 : v < 0x80
  · rw [if_pos h1]
    simp only [List.cons_append, List.nil_append]
    simp only [utf8DecodeChar?]
    rw [if_pos h1, hofn]
  · by_cases h2 : v < 0x800
    · rw [if_neg h1, if_pos h2]
      simp only [List.cons_append, List.nil_append]
      simp only [utf8DecodeChar?]
      rw [if_neg (by omega), if_neg (by omega), if_pos (by omega),
        if_pos (by omega), if_pos (by omega)]
      have hval : (0xC0 + v / 64 - 0xC0) * 64 + (0x80 + v % 64 - 0x80) = v := by
        omega
      rw [hval, hofn]
    · by_cases h3 : v < 0x10000
      · rw [if_neg h1, if_neg h2, if_pos h3]
        simp only [List.cons_append, List.nil_append]
        simp only [utf8DecodeChar?]
        rw [if_neg (by omega), if_neg (by omega), if_neg (by omega),
          if_pos (by omega), if_pos (by split <;> omega),
          if_pos (by split <;> omega), if_pos (by omega), if_pos (by omega)]
        have hval : (0xE0 + v / 4096 - 0xE0) * 4096 +
            (0x80 + v / 64 % 64 - 0x80) * 64 + (0x80 + v % 64 - 0x80) = v := by
          omega
        rw [hval, hofn]
      · rw [if_neg h1, if_neg h2, if_neg h3]
        simp only [List.cons_append, List.nil_append]
        simp only [utf8DecodeChar?]
        rw [if_neg (by omega), if_neg (by omega), if_neg (by omega),
          if_neg (by omega), if_pos (by omega), if_pos (by split <;> omega),
          if_pos (by split <;> omega), if_pos (by omega), if_pos (by omega),
          if_pos (by omega), if_pos (by omega)]
        have hval : (0xF0 + v / 262144 - 0xF0) * 262144 +
            (0x80 + v / 4096 % 64 - 0x80) * 4096 +
            (0x80 + v / 64 % 64 - 0x80) * 64 + (0x80 + v % 64 - 0x80) = v := by
          omega
        rw [hval, hofn]

/-- Decoding the concatenated encodings of a character list recovers
the list, for any fuel of at least one unit per character. -/
theorem utf8DecodeList_encode (cs : List Char) :
    ∀ fuel, cs.length ≤ fuel →
      utf8DecodeList fuel (cs.flatMap utf8EncodeChar) = some cs := by
  induction cs with
  | nil =>
    intro fuel _
    cases fuel <;> rfl
  | cons c cs ih =>
    intro fuel hfuel
    cases fuel with
    | zero => simp at hfuel
    | succ fuel =>
      have hdec := utf8DecodeChar?_encode c (cs.flatMap utf8EncodeChar)
      rcases hb : utf8EncodeChar c with _ | ⟨b, bs⟩
      · exact absurd hb (utf8EncodeChar_ne_nil c)
      · rw [hb, List.cons_append] at hdec
        rw [List.flatMap_cons, hb, List.cons_append]
        simp only [utf8DecodeList, hdec,
          ih fuel (by simp only [List.length_cons] at hfuel; omega)]

/-- Any string's UTF-8 bytes decode back to the same string: the
`String::from_utf8(s.as_bytes())` round-trip. -/
theorem utf8Decode?_strBytes (s : String) : utf8Decode? (strBytes s) = some s := by
  have hlen : s.data.length ≤ (s.data.flatMap utf8EncodeChar).length := by
    induction s.data with
    | nil => simp
    | cons c cs ih =>
      simp only [List.flatMap_cons, List.length_append, List.length_cons]
      have hne := utf8EncodeChar_ne_nil c
      have h1 : 1 ≤ (utf8EncodeChar c).length := by
        rcases h : utf8EncodeChar c with _ | ⟨b, bs⟩
        · exact absurd h hne
        · simp
      omega
  unfold utf8Decode? strBytes
  rw [utf8DecodeList_encode s.data _ hlen]
  cases s
  rfl

/-- **C9.** Literal data supplied to the auto-detect data flag is a
command-line string, hence valid UTF-8, so auto-detection yields Json
or Text according to the JSON parse and never Binary. -/
theorem literal_auto_never_binary (s : String) :
    (∀ env inputs others rest,
      scanLoop env inputs others ("-d" :: s :: rest) =
        scanLoop env (inputs ++ [InputData.auto (strBytes s)]) others rest) ∧
    InputData.auto (strBytes s) =
      (if jsonFromStr s then InputData.Json s else InputData.Text s) ∧
    (∀ b, InputData.auto (strBytes s) ≠ InputData.Binary b) := by
  have h := utf8Decode?_strBytes s
  refine ⟨fun env inputs others rest => rfl, ?_, ?_⟩
  · simp only [InputData.auto, h]
  · intro b hb
    simp only [InputData.auto, h] at hb
    revert hb
    split <;> simp

/-- Witness for C9 at the concrete literal `hello`. -/
theorem literal_auto_never_binary_witness :
    InputData.auto (strBytes "hello") = InputData.Text "hello" := by
  have h := (literal_auto_never_binary "hello").2.1
  rw [show jsonFromStr "hello" = false from by decide] at h
  simpa using h

end AlgoRun
